import Mathlib

/-!
# Verification of the `launchy` canvas core (`src/canvas.rs`)

A shallow embedding of the `Canvas` trait, its bounds-checked default methods
(`set`, `get`, `get_old`), the `CanvasButton` handle, and the `CanvasIterator`
traversal (`new`, `advance`, `find_next_valid`, `next`).

Modelling conventions:
* A concrete grid type implementing the trait is a `Canvas σ γ` record, where
  `σ` is the device state and `γ` the color type.  The associated constants
  `BOUNDING_BOX_WIDTH` / `BOUNDING_BOX_HEIGHT`, the predicate `is_valid` and
  the unchecked accessors are its fields.
* Coordinates are `Nat`.  The source uses `u32`, whose release-mode
  increments wrap at `2 ^ 32 = 4294967296` (debug builds panic at the
  overflow).  `Canvas.advance` uses a plain `Nat` increment, which agrees
  with the `u32` semantics on every path that stays below the wrap — all
  paths the bounded theorems traverse.  `Canvas.advance32` and
  `Canvas.find_next_valid32` make the wrap explicit for the paths where
  overflow matters (zero width, or a cursor with `x` at or beyond the
  width); `Canvas.advance32_eq_advance` ties the two below the wrap.
* `panic!` in a checked façade operation is modelled as `none`.
* The `loop` inside `find_next_valid` is modelled with explicit fuel: a
  `none` result means the loop has not terminated within the given number of
  `advance` steps.  `Canvas.cellCount` (`W * H`) is the canonical fuel; it is
  proved sufficient from every cursor state the iterator can actually reach.
-/

set_option maxHeartbeats 1000000

universe u v

/-- Cursor state of `CanvasIterator` (its `x`, `y` fields). -/
structure CanvasIterator where
  x : Nat
  y : Nat
deriving DecidableEq

/-- The validity-proven coordinate handle `CanvasButton` (its `x`, `y`
fields; the phantom grid-type tag has no runtime content). -/
structure CanvasButton where
  x : Nat
  y : Nat
deriving DecidableEq

/-- The `Canvas` trait: bounding-box constants, the validity predicate, the
raw unchecked accessors and `flush`.  `flush` returns `anyhow::Result<()>`,
modelled as `Except String σ` (state-passing style). -/
structure Canvas (σ : Type u) (γ : Type v) where
  BOUNDING_BOX_WIDTH : Nat
  BOUNDING_BOX_HEIGHT : Nat
  is_valid : Nat → Nat → Bool
  get_unchecked : σ → Nat → Nat → γ
  set_unchecked : σ → Nat → Nat → γ → σ
  get_old_unchecked : σ → Nat → Nat → γ
  flush : σ → Except String σ

variable {σ : Type u} {γ : Type v}

/-- Façade `Canvas::set`: panics (modelled `none`) when `is_valid` fails,
otherwise delegates to `set_unchecked`. -/
def Canvas.set (C : Canvas σ γ) (s : σ) (x y : Nat) (color : γ) : Option σ :=
  if !C.is_valid x y then none
  else some (C.set_unchecked s x y color)

/-- Façade `Canvas::get`: panics (modelled `none`) when `is_valid` fails,
otherwise delegates to `get_unchecked`. -/
def Canvas.get (C : Canvas σ γ) (s : σ) (x y : Nat) : Option γ :=
  if !C.is_valid x y then none
  else some (C.get_unchecked s x y)

/-- Façade `Canvas::get_old`: panics (modelled `none`) when `is_valid` fails,
otherwise delegates to `get_old_unchecked`. -/
def Canvas.get_old (C : Canvas σ γ) (s : σ) (x y : Nat) : Option γ :=
  if !C.is_valid x y then none
  else some (C.get_old_unchecked s x y)

/-- `CanvasButton::get`: calls `get_unchecked` directly with the stored
coordinates. -/
def CanvasButton.get (b : CanvasButton) (C : Canvas σ γ) (s : σ) : γ :=
  C.get_unchecked s b.x b.y

/-- `CanvasButton::get_old`: calls `get_old_unchecked` directly with the
stored coordinates. -/
def CanvasButton.get_old (b : CanvasButton) (C : Canvas σ γ) (s : σ) : γ :=
  C.get_old_unchecked s b.x b.y

/-- `CanvasButton::set`: calls `set_unchecked` directly with the stored
coordinates. -/
def CanvasButton.set (b : CanvasButton) (C : Canvas σ γ) (s : σ) (color : γ) : σ :=
  C.set_unchecked s b.x b.y color

/-- `CanvasIterator::advance`: increment `x`; when `x` reaches exactly
`BOUNDING_BOX_WIDTH`, reset `x` to `0` and increment `y`.  Plain `Nat`
increments: identical to the `u32` source whenever `x + 1` and `y + 1` stay
below `2 ^ 32` (see `Canvas.advance32` for the exact wrapping semantics). -/
def Canvas.advance (C : Canvas σ γ) (it : CanvasIterator) : CanvasIterator :=
  let x := it.x + 1
  if x = C.BOUNDING_BOX_WIDTH then { x := 0, y := it.y + 1 }
  else { x := x, y := it.y }

/-- `CanvasIterator::find_next_valid`, with explicit fuel bounding the number
of `advance` steps the `loop` may take.  `none` means the loop has not
returned within `fuel` steps. -/
def Canvas.find_next_valid (C : Canvas σ γ) (fuel : Nat) (it : CanvasIterator) :
    Option (Bool × CanvasIterator) :=
  if C.BOUNDING_BOX_HEIGHT ≤ it.y then some (false, it)
  else if C.is_valid it.x it.y then some (true, it)
  else
    match fuel with
    | 0 => none
    | fuel' + 1 => C.find_next_valid fuel' (C.advance it)

/-- The number of bounding-box cells, `W * H`; the canonical fuel for
`find_next_valid` (sufficient from every reachable cursor state). -/
def Canvas.cellCount (C : Canvas σ γ) : Nat :=
  C.BOUNDING_BOX_WIDTH * C.BOUNDING_BOX_HEIGHT

/-- `CanvasIterator::new`: start at `(0, 0)` and run `find_next_valid` once
(the pre-scan), keeping the resulting cursor.  `none` means construction does
not terminate. -/
def Canvas.iterNew (C : Canvas σ γ) : Option CanvasIterator :=
  (C.find_next_valid C.cellCount { x := 0, y := 0 }).map Prod.snd

/-- `<CanvasIterator as Iterator>::next`: run `find_next_valid`; on `false`
return `None` (modelled `(none, cursor)`), otherwise capture the coordinate
into a `CanvasButton`, advance once, and return the handle.  The outer `none`
means `find_next_valid` did not terminate. -/
def Canvas.next (C : Canvas σ γ) (it : CanvasIterator) :
    Option (Option CanvasButton × CanvasIterator) :=
  match C.find_next_valid C.cellCount it with
  | none => none
  | some (false, it') => some (none, it')
  | some (true, it') => some (some { x := it'.x, y := it'.y }, C.advance it')

/-- `CanvasIterator::advance` under the exact release-mode `u32` semantics:
both increments wrap at `2 ^ 32 = 4294967296`.  (A debug build panics at the
wrapping increment instead.)  Identical to `Canvas.advance` on every state
whose increments stay below the wrap. -/
def Canvas.advance32 (C : Canvas σ γ) (it : CanvasIterator) : CanvasIterator :=
  let x := (it.x + 1) % 4294967296
  if x = C.BOUNDING_BOX_WIDTH then { x := 0, y := (it.y + 1) % 4294967296 }
  else { x := x, y := it.y }

/-- `CanvasIterator::find_next_valid` over the wrapping `advance32`,
fuel-bounded in the number of `advance` steps as before. -/
def Canvas.find_next_valid32 (C : Canvas σ γ) (fuel : Nat) (it : CanvasIterator) :
    Option (Bool × CanvasIterator) :=
  if C.BOUNDING_BOX_HEIGHT ≤ it.y then some (false, it)
  else if C.is_valid it.x it.y then some (true, it)
  else
    match fuel with
    | 0 => none
    | fuel' + 1 => C.find_next_valid32 fuel' (C.advance32 it)

/-- `CanvasIterator::new` under the wrapping `u32` semantics, with an
explicit fuel for the pre-scan. -/
def Canvas.iterNew32 (C : Canvas σ γ) (fuel : Nat) : Option CanvasIterator :=
  (C.find_next_valid32 fuel { x := 0, y := 0 }).map Prod.snd

/-- `<CanvasIterator as Iterator>::next` under the wrapping `u32` semantics,
with an explicit fuel for the `find_next_valid` call. -/
def Canvas.next32 (C : Canvas σ γ) (fuel : Nat) (it : CanvasIterator) :
    Option (Option CanvasButton × CanvasIterator) :=
  match C.find_next_valid32 fuel it with
  | none => none
  | some (false, it') => some (none, it')
  | some (true, it') => some (some { x := it'.x, y := it'.y }, C.advance32 it')

/-- Drain the iterator from cursor `it` by calling `next` repeatedly,
collecting the emitted handles; `n` bounds the number of emissions.  The
result is `none` if some `next` call runs out of fuel or the iterator is not
exhausted within `n` emissions. -/
def Canvas.runFrom (C : Canvas σ γ) (n : Nat) (it : CanvasIterator) :
    Option (List CanvasButton) :=
  match C.next it with
  | none => none
  | some (none, _) => some []
  | some (some b, it') =>
    match n with
    | 0 => none
    | n' + 1 => (C.runFrom n' it').map (fun l => b :: l)

/-- The full observable traversal of `Canvas::iter()`: construct the iterator
with `CanvasIterator::new` and drain it.  `cellCount` emissions always
suffice, since each emitted handle has a distinct bounding-box cell. -/
def Canvas.iterList (C : Canvas σ γ) : Option (List CanvasButton) :=
  match C.iterNew with
  | none => none
  | some it => C.runFrom C.cellCount it

/-- The traversal of a hypothetical iterator started at `(0, 0)` without the
`find_next_valid` pre-scan of `CanvasIterator::new`. -/
def Canvas.iterListNoPrescan (C : Canvas σ γ) : Option (List CanvasButton) :=
  C.runFrom C.cellCount { x := 0, y := 0 }

/-- All bounding-box coordinates in row-major order:
`(0,0), (1,0), …, (W-1,0), (0,1), …, (W-1,H-1)`. -/
def Canvas.rowMajor (C : Canvas σ γ) : List (Nat × Nat) :=
  (List.range C.BOUNDING_BOX_HEIGHT).flatMap
    (fun y => (List.range C.BOUNDING_BOX_WIDTH).map (fun x => (x, y)))

/-- The bounding-box coordinates satisfying `is_valid`, in row-major order. -/
def Canvas.validList (C : Canvas σ γ) : List (Nat × Nat) :=
  C.rowMajor.filter (fun p => C.is_valid p.1 p.2)

/-- The cursor sitting on the `i`-th bounding-box cell in row-major order. -/
def Canvas.cell (C : Canvas σ γ) (i : Nat) : CanvasIterator :=
  { x := i % C.BOUNDING_BOX_WIDTH, y := i / C.BOUNDING_BOX_WIDTH }

/-- The handle for the `i`-th bounding-box cell in row-major order. -/
def Canvas.button (C : Canvas σ γ) (i : Nat) : CanvasButton :=
  { x := i % C.BOUNDING_BOX_WIDTH, y := i / C.BOUNDING_BOX_WIDTH }

/-- Row-major indices `≥ i` of the valid cells of the bounding box. -/
def Canvas.validIdxFrom (C : Canvas σ γ) (i : Nat) : List Nat :=
  (List.range' i (C.cellCount - i)).filter
    (fun j => C.is_valid (j % C.BOUNDING_BOX_WIDTH) (j / C.BOUNDING_BOX_WIDTH))

/-! ## Concrete grid instances used as witnesses and counterexamples -/

/-- A grid with `BOUNDING_BOX_WIDTH = 5`, `BOUNDING_BOX_HEIGHT = 0`, and
`is_valid` everywhere false. -/
def GridH0 : Canvas Unit Unit where
  BOUNDING_BOX_WIDTH := 5
  BOUNDING_BOX_HEIGHT := 0
  is_valid := fun _ _ => false
  get_unchecked := fun _ _ _ => ()
  set_unchecked := fun s _ _ _ => s
  get_old_unchecked := fun _ _ _ => ()
  flush := fun s => Except.ok s

/-- A `2 × 2` grid whose only valid cell is `(0, 0)` (a sparse layout). -/
def GridCorner : Canvas Unit Unit where
  BOUNDING_BOX_WIDTH := 2
  BOUNDING_BOX_HEIGHT := 2
  is_valid := fun x y => decide (x = 0 ∧ y = 0)
  get_unchecked := fun _ _ _ => ()
  set_unchecked := fun s _ _ _ => s
  get_old_unchecked := fun _ _ _ => ()
  flush := fun s => Except.ok s

/-- A `1 × 1` grid with no valid cell at all. -/
def GridSparse : Canvas Unit Unit where
  BOUNDING_BOX_WIDTH := 1
  BOUNDING_BOX_HEIGHT := 1
  is_valid := fun _ _ => false
  get_unchecked := fun _ _ _ => ()
  set_unchecked := fun s _ _ _ => s
  get_old_unchecked := fun _ _ _ => ()
  flush := fun s => Except.ok s

/-- A fully valid `1 × 1` grid whose state is a single `Nat` color. -/
def GridOne : Canvas Nat Nat where
  BOUNDING_BOX_WIDTH := 1
  BOUNDING_BOX_HEIGHT := 1
  is_valid := fun x y => decide (x < 1 ∧ y < 1)
  get_unchecked := fun s _ _ => s
  set_unchecked := fun _ _ _ c => c
  get_old_unchecked := fun s _ _ => s
  flush := fun s => Except.ok s

/-- A fully valid `2 × 2` rectangular grid. -/
def GridRect : Canvas Unit Unit where
  BOUNDING_BOX_WIDTH := 2
  BOUNDING_BOX_HEIGHT := 2
  is_valid := fun x y => decide (x < 2) && decide (y < 2)
  get_unchecked := fun _ _ _ => ()
  set_unchecked := fun s _ _ _ => s
  get_old_unchecked := fun _ _ _ => ()
  flush := fun s => Except.ok s

/-- A fully valid `2 × 2` grid holding a pending buffer and a flushed buffer,
with read-your-writes `set_unchecked` and a `flush` that commits the pending
buffer. -/
def BufGrid : Canvas ((Nat × Nat → Nat) × (Nat × Nat → Nat)) Nat where
  BOUNDING_BOX_WIDTH := 2
  BOUNDING_BOX_HEIGHT := 2
  is_valid := fun x y => decide (x < 2) && decide (y < 2)
  get_unchecked := fun s x y => s.1 (x, y)
  set_unchecked := fun s x y c => (fun p => if p = (x, y) then c else s.1 p, s.2)
  get_old_unchecked := fun s x y => s.2 (x, y)
  flush := fun s => Except.ok (s.1, s.1)

/-! ## Basic lemmas about `find_next_valid`, `advance` and `cell` -/

theorem Canvas.advance_y_le (C : Canvas σ γ) (it : CanvasIterator) :
    it.y ≤ (C.advance it).y := by
  simp only [Canvas.advance]
  split <;> simp

theorem Canvas.find_next_valid_exhaust (C : Canvas σ γ) (f : Nat) (it : CanvasIterator)
    (h : C.BOUNDING_BOX_HEIGHT ≤ it.y) :
    C.find_next_valid f it = some (false, it) := by
  unfold Canvas.find_next_valid
  rw [if_pos h]

theorem Canvas.find_next_valid_found (C : Canvas σ γ) (f : Nat) (it : CanvasIterator)
    (h1 : ¬ C.BOUNDING_BOX_HEIGHT ≤ it.y) (h2 : C.is_valid it.x it.y = true) :
    C.find_next_valid f it = some (true, it) := by
  unfold Canvas.find_next_valid
  rw [if_neg h1, if_pos h2]

theorem Canvas.find_next_valid_zero (C : Canvas σ γ) (it : CanvasIterator)
    (h1 : ¬ C.BOUNDING_BOX_HEIGHT ≤ it.y) (h2 : C.is_valid it.x it.y = false) :
    C.find_next_valid 0 it = none := by
  unfold Canvas.find_next_valid
  rw [if_neg h1, h2]
  simp

theorem Canvas.find_next_valid_step (C : Canvas σ γ) (f : Nat) (it : CanvasIterator)
    (h1 : ¬ C.BOUNDING_BOX_HEIGHT ≤ it.y) (h2 : C.is_valid it.x it.y = false) :
    C.find_next_valid (f + 1) it = C.find_next_valid f (C.advance it) := by
  conv => lhs; unfold Canvas.find_next_valid
  rw [if_neg h1, h2]
  simp

theorem Canvas.find_next_valid_post (C : Canvas σ γ) :
    ∀ f it b it', C.find_next_valid f it = some (b, it') →
      (b = true ∧ C.is_valid it'.x it'.y = true ∧ it'.y < C.BOUNDING_BOX_HEIGHT) ∨
      (b = false ∧ C.BOUNDING_BOX_HEIGHT ≤ it'.y) := by
  intro f
  induction f with
  | zero =>
    intro it b it' h
    by_cases h1 : C.BOUNDING_BOX_HEIGHT ≤ it.y
    · rw [C.find_next_valid_exhaust 0 it h1] at h
      simp only [Option.some.injEq, Prod.mk.injEq] at h
      exact Or.inr ⟨h.1.symm, h.2 ▸ h1⟩
    · by_cases h2 : C.is_valid it.x it.y = true
      · rw [C.find_next_valid_found 0 it h1 h2] at h
        simp only [Option.some.injEq, Prod.mk.injEq] at h
        exact Or.inl ⟨h.1.symm, h.2 ▸ h2, h.2 ▸ (by omega)⟩
      · rw [C.find_next_valid_zero it h1 (by simpa using h2)] at h
        cases h
  | succ f ih =>
    intro it b it' h
    by_cases h1 : C.BOUNDING_BOX_HEIGHT ≤ it.y
    · rw [C.find_next_valid_exhaust (f + 1) it h1] at h
      simp only [Option.some.injEq, Prod.mk.injEq] at h
      exact Or.inr ⟨h.1.symm, h.2 ▸ h1⟩
    · by_cases h2 : C.is_valid it.x it.y = true
      · rw [C.find_next_valid_found (f + 1) it h1 h2] at h
        simp only [Option.some.injEq, Prod.mk.injEq] at h
        exact Or.inl ⟨h.1.symm, h.2 ▸ h2, h.2 ▸ (by omega)⟩
      · rw [C.find_next_valid_step f it h1 (by simpa using h2)] at h
        exact ih _ _ _ h

theorem Canvas.find_next_valid_mono (C : Canvas σ γ) :
    ∀ f f' it r, f ≤ f' → C.find_next_valid f it = some r →
      C.find_next_valid f' it = some r := by
  intro f
  induction f with
  | zero =>
    intro f' it r _ h
    by_cases h1 : C.BOUNDING_BOX_HEIGHT ≤ it.y
    · rw [C.find_next_valid_exhaust 0 it h1] at h
      rw [C.find_next_valid_exhaust f' it h1]
      exact h
    · by_cases h2 : C.is_valid it.x it.y = true
      · rw [C.find_next_valid_found 0 it h1 h2] at h
        rw [C.find_next_valid_found f' it h1 h2]
        exact h
      · rw [C.find_next_valid_zero it h1 (by simpa using h2)] at h
        cases h
  | succ f ih =>
    intro f' it r hle h
    by_cases h1 : C.BOUNDING_BOX_HEIGHT ≤ it.y
    · rw [C.find_next_valid_exhaust (f + 1) it h1] at h
      rw [C.find_next_valid_exhaust f' it h1]
      exact h
    · by_cases h2 : C.is_valid it.x it.y = true
      · rw [C.find_next_valid_found (f + 1) it h1 h2] at h
        rw [C.find_next_valid_found f' it h1 h2]
        exact h
      · rw [C.find_next_valid_step f it h1 (by simpa using h2)] at h
        cases f' with
        | zero => omega
        | succ f'' =>
          rw [C.find_next_valid_step f'' it h1 (by simpa using h2)]
          exact ih f'' _ _ (by omega) h

theorem Canvas.find_next_valid_idem (C : Canvas σ γ) (f f' : Nat) (it b it')
    (h : C.find_next_valid f it = some (b, it')) :
    C.find_next_valid f' it' = some (b, it') := by
  rcases C.find_next_valid_post f it b it' h with ⟨rfl, hv, hy⟩ | ⟨rfl, hy⟩
  · exact C.find_next_valid_found f' it' (by omega) hv
  · exact C.find_next_valid_exhaust f' it' hy

theorem mod_div_decomp (b q r : Nat) (hb : 0 < b) (hr : r < b) (a : Nat)
    (ha : a = b * q + r) : a % b = r ∧ a / b = q := by
  subst ha
  constructor
  · rw [Nat.mul_add_mod]
    exact Nat.mod_eq_of_lt hr
  · rw [Nat.mul_add_div hb, Nat.div_eq_of_lt hr, Nat.add_zero]

theorem Canvas.advance_cell (C : Canvas σ γ) (hW : 0 < C.BOUNDING_BOX_WIDTH) (i : Nat) :
    C.advance (C.cell i) = C.cell (i + 1) := by
  have hmod : i % C.BOUNDING_BOX_WIDTH < C.BOUNDING_BOX_WIDTH := Nat.mod_lt _ hW
  have hdm := Nat.div_add_mod i C.BOUNDING_BOX_WIDTH
  by_cases h : i % C.BOUNDING_BOX_WIDTH + 1 = C.BOUNDING_BOX_WIDTH
  · have h1 : i + 1 = C.BOUNDING_BOX_WIDTH * (i / C.BOUNDING_BOX_WIDTH + 1) + 0 := by
      rw [Nat.mul_add, Nat.mul_one]
      omega
    obtain ⟨hm, hd⟩ := mod_div_decomp _ (i / C.BOUNDING_BOX_WIDTH + 1) 0 hW hW _ h1
    simp [Canvas.advance, Canvas.cell, h, hm, hd]
  · have hlt : i % C.BOUNDING_BOX_WIDTH + 1 < C.BOUNDING_BOX_WIDTH := by omega
    have h1 : i + 1 = C.BOUNDING_BOX_WIDTH * (i / C.BOUNDING_BOX_WIDTH) +
        (i % C.BOUNDING_BOX_WIDTH + 1) := by omega
    obtain ⟨hm, hd⟩ := mod_div_decomp _ (i / C.BOUNDING_BOX_WIDTH)
      (i % C.BOUNDING_BOX_WIDTH + 1) hW hlt _ h1
    simp [Canvas.advance, Canvas.cell, h, hm, hd]

theorem Canvas.cell_y_lt (C : Canvas σ γ) (hW : 0 < C.BOUNDING_BOX_WIDTH) {i : Nat}
    (h : i < C.cellCount) : (C.cell i).y < C.BOUNDING_BOX_HEIGHT := by
  have h' : i < C.BOUNDING_BOX_HEIGHT * C.BOUNDING_BOX_WIDTH := by
    unfold Canvas.cellCount at h
    rw [Nat.mul_comm]
    exact h
  show i / C.BOUNDING_BOX_WIDTH < C.BOUNDING_BOX_HEIGHT
  exact (Nat.div_lt_iff_lt_mul hW).mpr h'

theorem Canvas.cell_y_ge (C : Canvas σ γ) (hW : 0 < C.BOUNDING_BOX_WIDTH) {i : Nat}
    (h : C.cellCount ≤ i) : C.BOUNDING_BOX_HEIGHT ≤ (C.cell i).y := by
  refine (Nat.le_div_iff_mul_le hW).mpr ?_
  unfold Canvas.cellCount at h
  rw [Nat.mul_comm] at h
  exact h

theorem Canvas.cell_zero (C : Canvas σ γ) : C.cell 0 = { x := 0, y := 0 } := by
  simp [Canvas.cell]

theorem Canvas.cursor_eq_cell (C : Canvas σ γ) (it : CanvasIterator)
    (hx : it.x < C.BOUNDING_BOX_WIDTH) :
    it = C.cell (it.x + it.y * C.BOUNDING_BOX_WIDTH) := by
  have hW : 0 < C.BOUNDING_BOX_WIDTH := by omega
  obtain ⟨hm, hd⟩ := mod_div_decomp _ it.y it.x hW hx
    (it.x + it.y * C.BOUNDING_BOX_WIDTH) (by ring)
  cases it with
  | mk x y => simp_all [Canvas.cell]

theorem Canvas.find_next_valid_total (C : Canvas σ γ) (hW : 0 < C.BOUNDING_BOX_WIDTH) :
    ∀ k i, C.cellCount - i ≤ k → ∃ r, C.find_next_valid k (C.cell i) = some r := by
  intro k
  induction k with
  | zero =>
    intro i h
    exact ⟨(false, C.cell i),
      C.find_next_valid_exhaust _ _ (C.cell_y_ge hW (by omega))⟩
  | succ k ih =>
    intro i h
    by_cases h1 : C.BOUNDING_BOX_HEIGHT ≤ (C.cell i).y
    · exact ⟨(false, C.cell i), C.find_next_valid_exhaust _ _ h1⟩
    · by_cases h2 : C.is_valid (C.cell i).x (C.cell i).y = true
      · exact ⟨(true, C.cell i), C.find_next_valid_found _ _ h1 h2⟩
      · have hi : i < C.cellCount := by
          by_contra hge
          exact h1 (C.cell_y_ge hW (by omega))
        rw [C.find_next_valid_step k _ h1 (by simpa using h2), C.advance_cell hW]
        exact ih (i + 1) (by omega)

/-! ## Lemmas about `next` and `runFrom` -/

theorem Canvas.next_of_none (C : Canvas σ γ) (it : CanvasIterator)
    (h : C.find_next_valid C.cellCount it = none) : C.next it = none := by
  unfold Canvas.next
  rw [h]

theorem Canvas.next_of_false (C : Canvas σ γ) (it it' : CanvasIterator)
    (h : C.find_next_valid C.cellCount it = some (false, it')) :
    C.next it = some (none, it') := by
  unfold Canvas.next
  rw [h]

theorem Canvas.next_of_true (C : Canvas σ γ) (it it' : CanvasIterator)
    (h : C.find_next_valid C.cellCount it = some (true, it')) :
    C.next it = some (some { x := it'.x, y := it'.y }, C.advance it') := by
  unfold Canvas.next
  rw [h]

theorem Canvas.runFrom_of_none (C : Canvas σ γ) (n : Nat) (it : CanvasIterator)
    (h : C.next it = none) : C.runFrom n it = none := by
  unfold Canvas.runFrom
  rw [h]

theorem Canvas.runFrom_of_exhaust (C : Canvas σ γ) (n : Nat) (it it' : CanvasIterator)
    (h : C.next it = some (none, it')) : C.runFrom n it = some [] := by
  unfold Canvas.runFrom
  rw [h]

theorem Canvas.runFrom_emit_zero (C : Canvas σ γ) (it : CanvasIterator)
    (b : CanvasButton) (it' : CanvasIterator)
    (h : C.next it = some (some b, it')) : C.runFrom 0 it = none := by
  unfold Canvas.runFrom
  rw [h]

theorem Canvas.runFrom_emit (C : Canvas σ γ) (n : Nat) (it : CanvasIterator)
    (b : CanvasButton) (it' : CanvasIterator)
    (h : C.next it = some (some b, it')) :
    C.runFrom (n + 1) it = (C.runFrom n it').map (fun l => b :: l) := by
  conv => lhs; unfold Canvas.runFrom
  rw [h]

theorem Canvas.runFrom_congr (C : Canvas σ γ) (n : Nat) (it1 it2 : CanvasIterator)
    (h : C.next it1 = C.next it2) : C.runFrom n it1 = C.runFrom n it2 := by
  cases hn : C.next it1 with
  | none =>
    rw [C.runFrom_of_none n it1 hn, C.runFrom_of_none n it2 (h.symm.trans hn)]
  | some p =>
    obtain ⟨ob, it'⟩ := p
    cases ob with
    | none =>
      rw [C.runFrom_of_exhaust n it1 it' hn,
        C.runFrom_of_exhaust n it2 it' (h.symm.trans hn)]
    | some b =>
      cases n with
      | zero =>
        rw [C.runFrom_emit_zero it1 b it' hn,
          C.runFrom_emit_zero it2 b it' (h.symm.trans hn)]
      | succ n =>
        rw [C.runFrom_emit n it1 b it' hn,
          C.runFrom_emit n it2 b it' (h.symm.trans hn)]

/-! ## The valid-index list and the main traversal lemma -/

theorem Canvas.validIdxFrom_of_ge (C : Canvas σ γ) (i : Nat) (h : C.cellCount ≤ i) :
    C.validIdxFrom i = [] := by
  unfold Canvas.validIdxFrom
  rw [Nat.sub_eq_zero_of_le h]
  rfl

theorem Canvas.validIdxFrom_of_lt (C : Canvas σ γ) (i : Nat) (h : i < C.cellCount) :
    C.validIdxFrom i =
      if C.is_valid (i % C.BOUNDING_BOX_WIDTH) (i / C.BOUNDING_BOX_WIDTH)
      then i :: C.validIdxFrom (i + 1)
      else C.validIdxFrom (i + 1) := by
  unfold Canvas.validIdxFrom
  have hn : C.cellCount - i = (C.cellCount - (i + 1)) + 1 := by omega
  rw [hn, List.range'_succ, List.filter_cons]

theorem Canvas.runFrom_cell (C : Canvas σ γ) (hW : 0 < C.BOUNDING_BOX_WIDTH) :
    ∀ k i n, C.cellCount - i ≤ k → i ≤ C.cellCount →
      (C.validIdxFrom i).length ≤ n →
      C.runFrom n (C.cell i) = some ((C.validIdxFrom i).map C.button) := by
  intro k
  induction k with
  | zero =>
    intro i n hk hi _
    have hie : C.cellCount ≤ i := by omega
    rw [C.validIdxFrom_of_ge i hie]
    have hnext := C.next_of_false (C.cell i) (C.cell i)
      (C.find_next_valid_exhaust _ _ (C.cell_y_ge hW hie))
    rw [C.runFrom_of_exhaust n _ _ hnext]
    rfl
  | succ k ih =>
    intro i n hk hi hlen
    by_cases hie : C.cellCount ≤ i
    · rw [C.validIdxFrom_of_ge i hie]
      have hnext := C.next_of_false (C.cell i) (C.cell i)
        (C.find_next_valid_exhaust _ _ (C.cell_y_ge hW hie))
      rw [C.runFrom_of_exhaust n _ _ hnext]
      rfl
    · have hilt : i < C.cellCount := by omega
      have hy : (C.cell i).y < C.BOUNDING_BOX_HEIGHT := C.cell_y_lt hW hilt
      by_cases hv : C.is_valid (i % C.BOUNDING_BOX_WIDTH) (i / C.BOUNDING_BOX_WIDTH) = true
      · -- the current cell is valid: `next` emits it and advances
        have hfnv : C.find_next_valid C.cellCount (C.cell i) = some (true, C.cell i) :=
          C.find_next_valid_found _ _ (by omega) hv
        have hnext := C.next_of_true _ _ hfnv
        rw [C.advance_cell hW] at hnext
        have hlist : C.validIdxFrom i = i :: C.validIdxFrom (i + 1) := by
          rw [C.validIdxFrom_of_lt i hilt, if_pos hv]
        cases n with
        | zero =>
          rw [hlist] at hlen
          simp at hlen
        | succ n =>
          rw [C.runFrom_emit n _ _ _ hnext, hlist]
          have hrec := ih (i + 1) n (by omega) (by omega)
            (by rw [hlist] at hlen; simpa using hlen)
          rw [hrec]
          rfl
      · -- the current cell is invalid: `next` behaves as from the successor cell
        have hvf : C.is_valid (i % C.BOUNDING_BOX_WIDTH) (i / C.BOUNDING_BOX_WIDTH) = false := by
          simpa using hv
        have hcc : 0 < C.cellCount := by omega
        obtain ⟨r, hr⟩ := C.find_next_valid_total hW (C.cellCount - 1) (i + 1) (by omega)
        have hr' : C.find_next_valid C.cellCount (C.cell (i + 1)) = some r :=
          C.find_next_valid_mono _ _ _ _ (by omega) hr
        have hstep : C.find_next_valid C.cellCount (C.cell i) = some r := by
          have hcc1 : C.cellCount = (C.cellCount - 1) + 1 := by omega
          rw [hcc1, C.find_next_valid_step _ _ (by omega) hvf, C.advance_cell hW]
          exact hr
        have hnexteq : C.next (C.cell i) = C.next (C.cell (i + 1)) := by
          unfold Canvas.next
          rw [hstep, hr']
        rw [C.runFrom_congr n _ _ hnexteq]
        have hlist : C.validIdxFrom i = C.validIdxFrom (i + 1) := by
          rw [C.validIdxFrom_of_lt i hilt, if_neg (by simp [hvf])]

        rw [hlist] at hlen ⊢
        exact ih (i + 1) n (by omega) (by omega) hlen

/-! ## Pre-scan redundancy and the row-major characterisation -/

theorem Canvas.iterList_eq_noPrescan (C : Canvas σ γ) :
    C.iterListNoPrescan = C.iterList := by
  unfold Canvas.iterList Canvas.iterNew Canvas.iterListNoPrescan
  cases hf : C.find_next_valid C.cellCount { x := 0, y := 0 } with
  | none =>
    exact C.runFrom_of_none _ _ (C.next_of_none _ hf)
  | some r =>
    obtain ⟨b, it'⟩ := r
    show C.runFrom C.cellCount { x := 0, y := 0 } = C.runFrom C.cellCount it'
    have hidem : C.find_next_valid C.cellCount it' = some (b, it') :=
      C.find_next_valid_idem _ _ _ _ _ hf
    apply C.runFrom_congr
    cases b with
    | false => rw [C.next_of_false _ _ hf, C.next_of_false _ _ hidem]
    | true => rw [C.next_of_true _ _ hf, C.next_of_true _ _ hidem]

theorem Canvas.range_cellCount_map (C : Canvas σ γ) (hW : 0 < C.BOUNDING_BOX_WIDTH) :
    (List.range C.cellCount).map
        (fun i => (i % C.BOUNDING_BOX_WIDTH, i / C.BOUNDING_BOX_WIDTH)) =
      C.rowMajor := by
  unfold Canvas.rowMajor Canvas.cellCount
  induction C.BOUNDING_BOX_HEIGHT with
  | zero => simp
  | succ h ih =>
    rw [Nat.mul_succ, List.range_add, List.map_append, ih, List.range_succ,
      List.flatMap_append]
    congr 1
    rw [List.flatMap_cons, List.flatMap_nil, List.append_nil, List.map_map]
    apply List.map_congr_left
    intro x hx
    have hxW : x < C.BOUNDING_BOX_WIDTH := List.mem_range.mp hx
    obtain ⟨hm, hd⟩ := mod_div_decomp _ h x hW hxW
      (C.BOUNDING_BOX_WIDTH * h + x) rfl
    simp [Function.comp, hm, hd]

theorem Canvas.validIdxFrom_zero_map (C : Canvas σ γ) (hW : 0 < C.BOUNDING_BOX_WIDTH) :
    (C.validIdxFrom 0).map C.button =
      C.validList.map (fun p => ({ x := p.1, y := p.2 } : CanvasButton)) := by
  unfold Canvas.validIdxFrom Canvas.validList
  rw [Nat.sub_zero, ← List.range_eq_range', ← C.range_cellCount_map hW,
    List.filter_map, List.map_map]
  rfl

theorem Canvas.iterList_spec (C : Canvas σ γ)
    (hpos : 0 < C.BOUNDING_BOX_WIDTH ∨ C.BOUNDING_BOX_HEIGHT = 0) :
    C.iterList = some (C.validList.map (fun p => ({ x := p.1, y := p.2 } : CanvasButton))) := by
  rcases hpos with hW | hH
  · rw [← C.iterList_eq_noPrescan]
    unfold Canvas.iterListNoPrescan
    have h0 : ({ x := 0, y := 0 } : CanvasIterator) = C.cell 0 := C.cell_zero.symm
    rw [h0]
    have hlen : (C.validIdxFrom 0).length ≤ C.cellCount := by
      have h1 := List.length_filter_le
        (fun j => C.is_valid (j % C.BOUNDING_BOX_WIDTH) (j / C.BOUNDING_BOX_WIDTH))
        (List.range' 0 (C.cellCount - 0))
      simpa [Canvas.validIdxFrom] using h1
    rw [C.runFrom_cell hW C.cellCount 0 C.cellCount (by omega) (by omega) hlen,
      C.validIdxFrom_zero_map hW]
  · have hfnv : C.find_next_valid C.cellCount { x := 0, y := 0 } =
        some (false, { x := 0, y := 0 }) :=
      C.find_next_valid_exhaust _ _ (by simp [hH])
    unfold Canvas.iterList Canvas.iterNew
    rw [hfnv]
    simp only [Option.map_some']
    rw [C.runFrom_of_exhaust _ _ _ (C.next_of_false _ _ hfnv)]
    unfold Canvas.validList Canvas.rowMajor
    rw [hH]
    simp

/-! ## Row-major length and wrapping-semantics lemmas -/

theorem Canvas.rowMajor_length (C : Canvas σ γ) :
    C.rowMajor.length = C.cellCount := by
  unfold Canvas.rowMajor Canvas.cellCount
  rw [List.length_flatMap,
    List.map_congr_left
      (fun a _ => by simp [Function.comp] :
        ∀ a ∈ List.range C.BOUNDING_BOX_HEIGHT,
          (List.length ∘ fun y =>
            List.map (fun x => (x, y)) (List.range C.BOUNDING_BOX_WIDTH)) a =
          (fun _ => C.BOUNDING_BOX_WIDTH) a),
    List.map_const', List.sum_replicate, List.length_range]
  simp [Nat.mul_comm]

/-! ## Lemmas about the exact wrapping `u32` semantics -/

theorem Canvas.advance32_eq_advance (C : Canvas σ γ) (it : CanvasIterator)
    (hx : it.x + 1 < 4294967296) (hy : it.y + 1 < 4294967296) :
    C.advance32 it = C.advance it := by
  simp [Canvas.advance32, Canvas.advance, Nat.mod_eq_of_lt hx, Nat.mod_eq_of_lt hy]

theorem Canvas.find_next_valid32_exhaust (C : Canvas σ γ) (f : Nat)
    (it : CanvasIterator) (h : C.BOUNDING_BOX_HEIGHT ≤ it.y) :
    C.find_next_valid32 f it = some (false, it) := by
  unfold Canvas.find_next_valid32
  rw [if_pos h]

theorem Canvas.find_next_valid32_step (C : Canvas σ γ) (f : Nat)
    (it : CanvasIterator) (h1 : ¬ C.BOUNDING_BOX_HEIGHT ≤ it.y)
    (h2 : C.is_valid it.x it.y = false) :
    C.find_next_valid32 (f + 1) it = C.find_next_valid32 f (C.advance32 it) := by
  conv => lhs; unfold Canvas.find_next_valid32
  rw [if_neg h1, h2]
  simp

theorem Canvas.find_next_valid32_w0_climb (C : Canvas σ γ)
    (hW : C.BOUNDING_BOX_WIDTH = 0)
    (hv : ∀ x y, C.is_valid x y = false) :
    ∀ r x y f, x + r + 1 = 4294967296 → y + 1 < 4294967296 →
      y < C.BOUNDING_BOX_HEIGHT →
      C.find_next_valid32 (r + 1 + f) { x := x, y := y } =
        C.find_next_valid32 f { x := 0, y := y + 1 } := by
  intro r
  induction r with
  | zero =>
    intro x y f hx hy hyH
    have hx' : x = 4294967295 := by omega
    subst hx'
    have h1 : ¬ C.BOUNDING_BOX_HEIGHT ≤
        ({ x := 4294967295, y := y } : CanvasIterator).y := by
      show ¬ C.BOUNDING_BOX_HEIGHT ≤ y
      omega
    rw [show 0 + 1 + f = f + 1 from by omega,
      C.find_next_valid32_step f _ h1 (hv _ _)]
    have hadv : C.advance32 { x := 4294967295, y := y } = { x := 0, y := y + 1 } := by
      simp [Canvas.advance32, hW, Nat.mod_eq_of_lt hy]
    rw [hadv]
  | succ r ih =>
    intro x y f hx hy hyH
    have h1 : ¬ C.BOUNDING_BOX_HEIGHT ≤ ({ x := x, y := y } : CanvasIterator).y := by
      show ¬ C.BOUNDING_BOX_HEIGHT ≤ y
      omega
    rw [show r + 1 + 1 + f = (r + 1 + f) + 1 from by omega,
      C.find_next_valid32_step _ _ h1 (hv _ _)]
    have hadv : C.advance32 { x := x, y := y } = { x := x + 1, y := y } := by
      have hx1 : (x + 1) % 4294967296 = x + 1 := Nat.mod_eq_of_lt (by omega)
      simp [Canvas.advance32, hx1, hW]
    rw [hadv]
    exact ih (x + 1) y f (by omega) hy hyH

theorem Canvas.find_next_valid32_w0_exhausts (C : Canvas σ γ)
    (hW : C.BOUNDING_BOX_WIDTH = 0)
    (hv : ∀ x y, C.is_valid x y = false)
    (hH32 : C.BOUNDING_BOX_HEIGHT < 4294967296) :
    ∀ h y, y + h = C.BOUNDING_BOX_HEIGHT →
      C.find_next_valid32 (4294967296 * h) { x := 0, y := y } =
        some (false, { x := 0, y := C.BOUNDING_BOX_HEIGHT }) := by
  intro h
  induction h with
  | zero =>
    intro y hy
    have hy' : y = C.BOUNDING_BOX_HEIGHT := by omega
    subst hy'
    exact C.find_next_valid32_exhaust _ _ (le_refl _)
  | succ h ih =>
    intro y hy
    have hyH : y < C.BOUNDING_BOX_HEIGHT := by omega
    have hy1 : y + 1 < 4294967296 := by omega
    rw [show 4294967296 * (h + 1) = 4294967295 + 1 + 4294967296 * h from by omega,
      C.find_next_valid32_w0_climb hW hv 4294967295 0 y (4294967296 * h)
        (by omega) hy1 hyH]
    exact ih (y + 1) (by omega)

/-! ## Claim theorems -/

/-- Claim C1: for every grid type whose validity predicate rejects
out-of-bounds coordinates (and whose bounding box meets the contract:
positive width, or a degenerate zero-height box), the sequence of handles
produced by repeatedly calling `next` on a fresh `CanvasIterator` is exactly
the list of coordinates `(x, y)` with `x < width`, `y < height` and
`is_valid x y`, each exactly once, in row-major `(y, x)`-lexicographic
order, and the number of emitted handles equals the number of valid
coordinates. -/
theorem traversal_emits_valid_row_major (C : Canvas σ γ)
    (hoob : ∀ x y, C.BOUNDING_BOX_WIDTH ≤ x ∨ C.BOUNDING_BOX_HEIGHT ≤ y →
      C.is_valid x y = false)
    (hpos : 0 < C.BOUNDING_BOX_WIDTH ∨ C.BOUNDING_BOX_HEIGHT = 0) :
    C.iterList =
      some (C.validList.map (fun p => ({ x := p.1, y := p.2 } : CanvasButton))) ∧
    C.iterList.map List.length = some C.validList.length := by
  have h := C.iterList_spec hpos
  refine ⟨h, ?_⟩
  rw [h]
  simp

/-- Witness for C1 on the sparse 2×2 corner grid. -/
theorem traversal_emits_valid_row_major_witness :
    GridCorner.iterList = some [{ x := 0, y := 0 }] := by
  have hoob : ∀ x y,
      GridCorner.BOUNDING_BOX_WIDTH ≤ x ∨ GridCorner.BOUNDING_BOX_HEIGHT ≤ y →
      GridCorner.is_valid x y = false := by
    intro x y h
    have h' : 2 ≤ x ∨ 2 ≤ y := h
    show decide (x = 0 ∧ y = 0) = false
    rw [decide_eq_false_iff_not]
    omega
  have h := (traversal_emits_valid_row_major GridCorner hoob (Or.inl (by decide))).1
  rw [h]
  decide

/-- Counterexample to claim C2 as stated: on a 2×2 grid whose only valid
cell is `(0, 0)`, immediately after `next` produces its first item the
cursor is `(1, 0)`, which is neither valid nor exhausted. -/
theorem cursor_state_after_next_cex :
    GridCorner.iterNew = some { x := 0, y := 0 } ∧
    GridCorner.next { x := 0, y := 0 } =
      some (some { x := 0, y := 0 }, { x := 1, y := 0 }) ∧
    GridCorner.is_valid 1 0 = false ∧
    ¬ GridCorner.BOUNDING_BOX_HEIGHT ≤ (0 : Nat) := by
  decide

/-- Claim C2 (amended): the valid-or-exhausted cursor invariant holds at
completion of `CanvasIterator::new` and immediately after the
`find_next_valid` step inside `next` (just before each item is produced) —
but not after the trailing `advance` that follows an emission. -/
theorem cursor_valid_or_exhausted_at_scan (C : Canvas σ γ) :
    (∀ it, C.iterNew = some it →
      C.is_valid it.x it.y = true ∨ C.BOUNDING_BOX_HEIGHT ≤ it.y) ∧
    (∀ f it b it', C.find_next_valid f it = some (b, it') →
      C.is_valid it'.x it'.y = true ∨ C.BOUNDING_BOX_HEIGHT ≤ it'.y) := by
  constructor
  · intro it h
    unfold Canvas.iterNew at h
    cases hf : C.find_next_valid C.cellCount { x := 0, y := 0 } with
    | none => rw [hf] at h; cases h
    | some r =>
      obtain ⟨b, it0⟩ := r
      rw [hf] at h
      simp only [Option.map_some', Option.some.injEq] at h
      subst h
      rcases C.find_next_valid_post _ _ _ _ hf with ⟨_, hv, _⟩ | ⟨_, hy⟩
      · exact Or.inl hv
      · exact Or.inr hy
  · intro f it b it' h
    rcases C.find_next_valid_post f it b it' h with ⟨_, hv, _⟩ | ⟨_, hy⟩
    · exact Or.inl hv
    · exact Or.inr hy

/-- Witness for the amended C2, at the cursor produced by `new` on the
corner grid. -/
theorem cursor_valid_or_exhausted_at_scan_witness :
    GridCorner.is_valid 0 0 = true ∨ GridCorner.BOUNDING_BOX_HEIGHT ≤ 0 :=
  (cursor_valid_or_exhausted_at_scan GridCorner).1 { x := 0, y := 0 } (by decide)

/-- Claim C3: for every grid type with an empty bounding box
(`BOUNDING_BOX_WIDTH = 0` or `BOUNDING_BOX_HEIGHT = 0`, with `is_valid`
false outside the box, and `BOUNDING_BOX_HEIGHT` a `u32` value), traversal
yields zero handles: the `CanvasIterator::new` pre-scan terminates with the
exhausted cursor, and the first `next` on the fresh iterator returns `None`.
Under the exact release-mode `u32` semantics the `W = 0 < H` case takes
`2 ^ 32` wrapping advances per row before `y` can move (a debug build would
panic at the overflow instead), so `2 ^ 32 * H` advance steps suffice. -/
theorem empty_box_first_next_none (C : Canvas σ γ)
    (hoob : ∀ x y, C.BOUNDING_BOX_WIDTH ≤ x ∨ C.BOUNDING_BOX_HEIGHT ≤ y →
      C.is_valid x y = false)
    (hbox : C.BOUNDING_BOX_WIDTH = 0 ∨ C.BOUNDING_BOX_HEIGHT = 0)
    (hH32 : C.BOUNDING_BOX_HEIGHT < 4294967296) :
    ∃ it', C.iterNew32 (4294967296 * C.BOUNDING_BOX_HEIGHT) = some it' ∧
      C.next32 (4294967296 * C.BOUNDING_BOX_HEIGHT) it' = some (none, it') ∧
      C.BOUNDING_BOX_HEIGHT ≤ it'.y := by
  rcases hbox with hW | hH
  · have hv : ∀ x y, C.is_valid x y = false :=
      fun x y => hoob x y (Or.inl (by omega))
    have hB := C.find_next_valid32_w0_exhausts hW hv hH32
      C.BOUNDING_BOX_HEIGHT 0 (by omega)
    refine ⟨{ x := 0, y := C.BOUNDING_BOX_HEIGHT }, ?_, ?_, le_refl _⟩
    · unfold Canvas.iterNew32
      rw [hB]
      rfl
    · unfold Canvas.next32
      rw [C.find_next_valid32_exhaust _ _ (le_refl _)]
  · have hex : C.BOUNDING_BOX_HEIGHT ≤ (({ x := 0, y := 0 } : CanvasIterator)).y := by
      show C.BOUNDING_BOX_HEIGHT ≤ 0
      omega
    refine ⟨{ x := 0, y := 0 }, ?_, ?_, hex⟩
    · unfold Canvas.iterNew32
      rw [C.find_next_valid32_exhaust _ _ hex]
      rfl
    · unfold Canvas.next32
      rw [C.find_next_valid32_exhaust _ _ hex]

/-- Witness for C3 on the 5×0 grid (zero height, so the sufficient fuel is
`2 ^ 32 * 0 = 0`). -/
theorem empty_box_first_next_none_witness :
    GridH0.iterNew32 (4294967296 * GridH0.BOUNDING_BOX_HEIGHT) =
      some { x := 0, y := 0 } ∧
    GridH0.next32 (4294967296 * GridH0.BOUNDING_BOX_HEIGHT) { x := 0, y := 0 } =
      some (none, { x := 0, y := 0 }) := by
  obtain ⟨it', h1, h2, h3⟩ := empty_box_first_next_none GridH0
    (fun _ _ _ => rfl) (Or.inr rfl) (by decide)
  exact ⟨by decide, by decide⟩

/-- Counterexample to claim C4 as stated: on a 1×1 grid with no valid cell,
from the cursor `(1, 0)` (an `x ≥ width` state) `find_next_valid` does not
return within `width * height = 1` advance steps — under the plain and the
wrapping `u32` `advance` alike — because `advance` can only reset `x` and
move `y` when `x` hits the width exactly, which from `(1, 0)` first requires
`x` to wrap around the whole `u32` range (about `2 ^ 32` steps, far beyond
`width * height`). -/
theorem find_next_valid_bound_cex :
    GridSparse.find_next_valid GridSparse.cellCount { x := 1, y := 0 } = none ∧
    GridSparse.find_next_valid32 GridSparse.cellCount { x := 1, y := 0 } = none :=
  ⟨by decide, by decide⟩

/-- Claim C4 (amended): for every grid type and every cursor state with
`x < BOUNDING_BOX_WIDTH` or `y ≥ BOUNDING_BOX_HEIGHT` (which covers every
state the iterator can reach), `find_next_valid` terminates within at most
`width * height` advance steps, returning `true` on a valid coordinate or
`false` with `y ≥ BOUNDING_BOX_HEIGHT`; moreover `advance` never decreases
`y`. -/
theorem find_next_valid_terminates_from_reachable (C : Canvas σ γ)
    (it : CanvasIterator)
    (h : it.x < C.BOUNDING_BOX_WIDTH ∨ C.BOUNDING_BOX_HEIGHT ≤ it.y) :
    (∃ b it', C.find_next_valid C.cellCount it = some (b, it') ∧
      (b = true → C.is_valid it'.x it'.y = true) ∧
      (b = false → C.BOUNDING_BOX_HEIGHT ≤ it'.y)) ∧
    it.y ≤ (C.advance it).y := by
  refine ⟨?_, C.advance_y_le it⟩
  by_cases hy : C.BOUNDING_BOX_HEIGHT ≤ it.y
  · exact ⟨false, it, C.find_next_valid_exhaust _ _ hy, by simp, fun _ => hy⟩
  · have hx : it.x < C.BOUNDING_BOX_WIDTH := by tauto
    have hW : 0 < C.BOUNDING_BOX_WIDTH := by omega
    have hcell := C.cursor_eq_cell it hx
    have hibound : it.x + it.y * C.BOUNDING_BOX_WIDTH < C.cellCount := by
      have h1 : it.x + it.y * C.BOUNDING_BOX_WIDTH + 1 ≤
          (it.y + 1) * C.BOUNDING_BOX_WIDTH := by
        rw [Nat.add_mul, Nat.one_mul]
        omega
      have h2 : (it.y + 1) * C.BOUNDING_BOX_WIDTH ≤
          C.BOUNDING_BOX_HEIGHT * C.BOUNDING_BOX_WIDTH :=
        Nat.mul_le_mul_right _ (by omega)
      unfold Canvas.cellCount
      rw [Nat.mul_comm C.BOUNDING_BOX_WIDTH C.BOUNDING_BOX_HEIGHT]
      omega
    obtain ⟨r, hr⟩ := C.find_next_valid_total hW C.cellCount
      (it.x + it.y * C.BOUNDING_BOX_WIDTH) (by omega)
    obtain ⟨b, it'⟩ := r
    rw [← hcell] at hr
    rcases C.find_next_valid_post _ _ _ _ hr with ⟨rfl, hv, _⟩ | ⟨rfl, hy'⟩
    · exact ⟨true, it', hr, fun _ => hv, by simp⟩
    · exact ⟨false, it', hr, by simp, fun _ => hy'⟩

/-- Witness for the amended C4 from the origin cursor on the corner grid. -/
theorem find_next_valid_terminates_from_reachable_witness :
    GridCorner.find_next_valid GridCorner.cellCount { x := 0, y := 0 } =
      some (true, { x := 0, y := 0 }) := by
  have h := find_next_valid_terminates_from_reachable GridCorner
    { x := 0, y := 0 } (Or.inl (by decide))
  decide

/-- Claim C5: the façade operations `set`, `get`, `get_old` fail fatally
(panic, modelled `none`) exactly when `is_valid x y` is false, and otherwise
behave as `set_unchecked`, `get_unchecked`, `get_old_unchecked`. -/
theorem facade_checks_bounds (C : Canvas σ γ) (s : σ) (x y : Nat) (c : γ) :
    (C.is_valid x y = false →
      C.set s x y c = none ∧ C.get s x y = none ∧ C.get_old s x y = none) ∧
    (C.is_valid x y = true →
      C.set s x y c = some (C.set_unchecked s x y c) ∧
      C.get s x y = some (C.get_unchecked s x y) ∧
      C.get_old s x y = some (C.get_old_unchecked s x y)) := by
  constructor <;> intro h <;>
    simp [Canvas.set, Canvas.get, Canvas.get_old, h]

/-- Witness for C5 on a 1×1 grid: out-of-bounds access panics, in-bounds
access delegates. -/
theorem facade_checks_bounds_witness :
    GridOne.get 3 1 0 = none ∧ GridOne.get 3 0 0 = some 3 ∧
    GridOne.set 3 0 0 7 = some 7 := by
  have h1 := (facade_checks_bounds GridOne 3 1 0 7).1 (by decide)
  have h2 := (facade_checks_bounds GridOne 3 0 0 7).2 (by decide)
  exact ⟨h1.2.1, h2.2.1, h2.1⟩

/-- Claim C6: on a grid whose unchecked primitives are self-consistent
(read-your-writes `set_unchecked`, `set_unchecked` leaves the flushed buffer
alone, and a successful `flush` makes `get_old_unchecked` report what
`get_unchecked` reported before the flush), for every valid coordinate:
`set` then `get` returns the written color, `get_old` is unaffected by `set`,
and after a successful `flush` the written color becomes the `get_old`
value. -/
theorem set_get_roundtrip_flush (C : Canvas σ γ)
    (hrw : ∀ s x y c, C.is_valid x y = true →
      C.get_unchecked (C.set_unchecked s x y c) x y = c)
    (hold : ∀ s x y c x' y',
      C.get_old_unchecked (C.set_unchecked s x y c) x' y' =
        C.get_old_unchecked s x' y')
    (hflush : ∀ s s' x y, C.is_valid x y = true → C.flush s = Except.ok s' →
      C.get_old_unchecked s' x y = C.get_unchecked s x y)
    (s : σ) (x y : Nat) (c : γ) (hv : C.is_valid x y = true) :
    C.set s x y c = some (C.set_unchecked s x y c) ∧
    C.get (C.set_unchecked s x y c) x y = some c ∧
    C.get_old (C.set_unchecked s x y c) x y = C.get_old s x y ∧
    ∀ s', C.flush (C.set_unchecked s x y c) = Except.ok s' →
      C.get_old s' x y = some c := by
  refine ⟨?_, ?_, ?_, ?_⟩
  · simp [Canvas.set, hv]
  · simp [Canvas.get, hv, hrw s x y c hv]
  · simp [Canvas.get_old, hv, hold s x y c x y]
  · intro s' hf
    have h1 : C.get_old_unchecked s' x y =
        C.get_unchecked (C.set_unchecked s x y c) x y :=
      hflush _ _ _ _ hv hf
    simp [Canvas.get_old, hv, h1, hrw s x y c hv]

/-- Witness for C6 on the buffered 2×2 grid, writing 5 at `(1, 1)`. -/
theorem set_get_roundtrip_flush_witness :
    BufGrid.get (BufGrid.set_unchecked (fun _ => 0, fun _ => 0) 1 1 5) 1 1 =
      some 5 ∧
    BufGrid.get_old (BufGrid.set_unchecked (fun _ => 0, fun _ => 0) 1 1 5) 1 1 =
      BufGrid.get_old (fun _ => 0, fun _ => 0) 1 1 := by
  have hrw : ∀ s x y c, BufGrid.is_valid x y = true →
      BufGrid.get_unchecked (BufGrid.set_unchecked s x y c) x y = c := by
    intro s x y c _
    simp [BufGrid]
  have hold : ∀ s x y c x' y',
      BufGrid.get_old_unchecked (BufGrid.set_unchecked s x y c) x' y' =
        BufGrid.get_old_unchecked s x' y' :=
    fun _ _ _ _ _ _ => rfl
  have hflush : ∀ s s' x y, BufGrid.is_valid x y = true →
      BufGrid.flush s = Except.ok s' →
      BufGrid.get_old_unchecked s' x y = BufGrid.get_unchecked s x y := by
    intro s s' x y _ hf
    have h2 : (s.1, s.1) = s' := by
      simpa [BufGrid] using hf
    subst h2
    rfl
  have h := set_get_roundtrip_flush BufGrid hrw hold hflush
    (fun _ => 0, fun _ => 0) 1 1 5 (by decide)
  exact ⟨h.2.1, h.2.2.1⟩

/-- Claim C7: the handle operations call the corresponding unchecked
primitive directly with the stored coordinates (definitional equalities),
and every handle emitted by `next` has a valid coordinate, so on such a
handle they agree with the checked façade operations (whose panic branch is
unreachable). -/
theorem handle_ops_match_facade (C : Canvas σ γ) (s : σ) (color : γ)
    (b : CanvasButton) (it it' : CanvasIterator)
    (h : C.next it = some (some b, it')) :
    C.is_valid b.x b.y = true ∧
    b.get C s = C.get_unchecked s b.x b.y ∧
    b.get_old C s = C.get_old_unchecked s b.x b.y ∧
    b.set C s color = C.set_unchecked s b.x b.y color ∧
    C.get s b.x b.y = some (b.get C s) ∧
    C.get_old s b.x b.y = some (b.get_old C s) ∧
    C.set s b.x b.y color = some (b.set C s color) := by
  unfold Canvas.next at h
  cases hf : C.find_next_valid C.cellCount it with
  | none => rw [hf] at h; cases h
  | some r =>
    obtain ⟨bb, it0⟩ := r
    rw [hf] at h
    cases bb with
    | false => simp at h
    | true =>
      simp only [Option.some.injEq, Prod.mk.injEq] at h
      obtain ⟨hb, -⟩ := h
      subst hb
      have hv : C.is_valid it0.x it0.y = true := by
        rcases C.find_next_valid_post _ _ _ _ hf with ⟨_, hv, _⟩ | ⟨hbf, _⟩
        · exact hv
        · exact Bool.noConfusion hbf
      refine ⟨hv, rfl, rfl, rfl, ?_, ?_, ?_⟩
      · simp [Canvas.get, CanvasButton.get, hv]
      · simp [Canvas.get_old, CanvasButton.get_old, hv]
      · simp [Canvas.set, CanvasButton.set, hv]

/-- Witness for C7 on the 1×1 grid: the first emitted handle is `(0, 0)` and
its operations agree with the façade. -/
theorem handle_ops_match_facade_witness :
    GridOne.is_valid 0 0 = true ∧
    GridOne.get 3 0 0 = some (CanvasButton.get { x := 0, y := 0 } GridOne 3) ∧
    GridOne.set 3 0 0 7 = some (CanvasButton.set { x := 0, y := 0 } GridOne 3 7) := by
  have h := handle_ops_match_facade GridOne 3 7 { x := 0, y := 0 }
    { x := 0, y := 0 } { x := 0, y := 1 } (by decide)
  exact ⟨h.1, h.2.2.2.2.1, h.2.2.2.2.2.2⟩

/-- Claim C8: on a fully rectangular `W × H` grid (`W, H > 0`, every
in-bounds coordinate valid), the traversal yields exactly the `W * H`
handles `(0,0), (1,0), …, (W-1,0), (0,1), …, (W-1,H-1)` in this order, after
which `next` reports exhaustion. -/
theorem rectangular_traversal_full (C : Canvas σ γ)
    (hW : 0 < C.BOUNDING_BOX_WIDTH) (hH : 0 < C.BOUNDING_BOX_HEIGHT)
    (hrect : ∀ x y, C.is_valid x y =
      (decide (x < C.BOUNDING_BOX_WIDTH) && decide (y < C.BOUNDING_BOX_HEIGHT))) :
    C.iterList =
      some (C.rowMajor.map (fun p => ({ x := p.1, y := p.2 } : CanvasButton))) ∧
    C.rowMajor.length = C.cellCount := by
  have hfull : C.validList = C.rowMajor := by
    unfold Canvas.validList
    rw [List.filter_eq_self]
    intro p hp
    unfold Canvas.rowMajor at hp
    simp only [List.mem_flatMap, List.mem_range, List.mem_map] at hp
    obtain ⟨y0, hy0, x0, hx0, rfl⟩ := hp
    rw [hrect]
    simp [hx0, hy0]
  refine ⟨?_, C.rowMajor_length⟩
  rw [C.iterList_spec (Or.inl hW), hfull]

/-- Witness for C8 on the fully valid 2×2 grid. -/
theorem rectangular_traversal_full_witness :
    GridRect.iterList = some
      [{ x := 0, y := 0 }, { x := 1, y := 0 }, { x := 0, y := 1 }, { x := 1, y := 1 }] := by
  have h := (rectangular_traversal_full GridRect (by decide) (by decide)
    (fun x y => rfl)).1
  rw [h]
  decide

/-- Claim C9: the iterator is fused — when `next` returns `None` the cursor
it leaves behind is exhausted (`y ≥ height`), every further `next` returns
`None` without changing the cursor, and draining from there emits nothing. -/
theorem iterator_fused_after_none (C : Canvas σ γ) (it it' : CanvasIterator)
    (h : C.next it = some (none, it')) :
    C.BOUNDING_BOX_HEIGHT ≤ it'.y ∧
    C.next it' = some (none, it') ∧
    ∀ n, C.runFrom n it' = some [] := by
  unfold Canvas.next at h
  cases hf : C.find_next_valid C.cellCount it with
  | none => rw [hf] at h; cases h
  | some r =>
    obtain ⟨bb, it0⟩ := r
    rw [hf] at h
    cases bb with
    | true => simp at h
    | false =>
      simp only [Option.some.injEq, Prod.mk.injEq] at h
      obtain rfl := h.2
      have hy : C.BOUNDING_BOX_HEIGHT ≤ it0.y := by
        rcases C.find_next_valid_post _ _ _ _ hf with ⟨hbf, _, _⟩ | ⟨_, hy⟩
        · exact Bool.noConfusion hbf
        · exact hy
      have hfnv' : C.find_next_valid C.cellCount it0 = some (false, it0) :=
        C.find_next_valid_exhaust _ _ hy
      exact ⟨hy, C.next_of_false _ _ hfnv',
        fun n => C.runFrom_of_exhaust n _ _ (C.next_of_false _ _ hfnv')⟩

/-- Witness for C9 on the 5×0 grid, whose very first `next` returns `None`. -/
theorem iterator_fused_after_none_witness :
    GridH0.next { x := 0, y := 0 } = some (none, { x := 0, y := 0 }) ∧
    GridH0.runFrom 3 { x := 0, y := 0 } = some [] := by
  have h := iterator_fused_after_none GridH0 { x := 0, y := 0 }
    { x := 0, y := 0 } (by decide)
  exact ⟨h.2.1, h.2.2 3⟩

/-- Claim C10: the `find_next_valid` pre-scan in `CanvasIterator::new` is
redundant for the observable sequence: an iterator started at `(0, 0)`
without the pre-scan produces, via repeated `next`, exactly the same
sequence of handles as `Canvas::iter` (since `next` itself begins with
`find_next_valid`, which is idempotent from a valid or exhausted state). -/
theorem prescan_redundant (C : Canvas σ γ) :
    C.iterListNoPrescan = C.iterList :=
  C.iterList_eq_noPrescan
